import Mathlib

/-!
Verification of the Egyptian national ID card scanner core
(`transform.py`, `card_recognition.py`).

The development shallowly embeds the pure content of the pipeline:

* `sort_quadrilateral_corners` — ordering of the four corner points of a
  detected quadrilateral (from `transform.py`, lines 26-67).  Points are
  integer pairs; `numpy.argmin` / `numpy.argmax` return the *first* index
  attaining the extremum, which `argmin4` / `argmax4` reproduce.  Note that
  `np.diff` applied to a row `(x, y)` yields `y - x`.
* `calculate_egyptian_id_confidence_score` — the plausibility score of an
  extracted digit string (from `card_recognition.py`, lines 194-261).  The
  score arithmetic (exact decimal fractions summed and clamped) is carried
  out in `ℚ`.
* `validate_id_number_region` — digit-glyph normalization, digit filtering
  and the length-12 validity gate applied to the raw OCR text
  (`card_recognition.py`, lines 178-191).  The imaging/OCR steps in front of
  it are external effects; the function is modelled from the raw OCR text on.
* `find_best_card_contour` / `scan_id_card` — the candidate selection loop
  and the top-level scan (`card_recognition.py`, lines 263-410).  Each
  contour candidate is abstracted by the outcomes of the external calls made
  for it (number of corners after polygon approximation, whether the
  perspective transform raises, whether the transformed image is `None`,
  whether OCR validation raises, and the raw OCR text on success).
-/

/-- A planar point with integer coordinates: one row of the `(4, 2)` array
handled by `sort_quadrilateral_corners`. -/
abbrev Pt := Int × Int

/-- Coordinate sum `x + y` (`corner_points.sum(axis=1)`). -/
def psum (p : Pt) : Int := p.1 + p.2

/-- Row difference: `np.diff` along axis 1 of a row `(x, y)` yields `y - x`. -/
def pdiff (p : Pt) : Int := p.2 - p.1

/-- The difference `x - y` used by the specification's description of the
corner ordering. -/
def xmy (p : Pt) : Int := p.1 - p.2

/-- Index of the first occurrence of the minimum of four values, as
`numpy.argmin` computes it on a 4-element array. -/
def argmin4 (s0 s1 s2 s3 : Int) : Nat :=
  if s0 ≤ s1 ∧ s0 ≤ s2 ∧ s0 ≤ s3 then 0
  else if s1 ≤ s2 ∧ s1 ≤ s3 then 1
  else if s2 ≤ s3 then 2
  else 3

/-- Index of the first occurrence of the maximum of four values, as
`numpy.argmax` computes it on a 4-element array. -/
def argmax4 (s0 s1 s2 s3 : Int) : Nat :=
  if s1 ≤ s0 ∧ s2 ≤ s0 ∧ s3 ≤ s0 then 0
  else if s2 ≤ s1 ∧ s3 ≤ s1 then 1
  else if s3 ≤ s2 then 2
  else 3

/-- Indexing `corner_points[i]` for an index produced by `argmin4` / `argmax4`. -/
def sel4 (i : Nat) (p0 p1 p2 p3 : Pt) : Pt :=
  match i with
  | 0 => p0
  | 1 => p1
  | 2 => p2
  | _ => p3

/-- The function `sort_quadrilateral_corners` from `transform.py`: output slot 0 is the
point at the first index minimizing `x + y`, slot 2 the point at the first
index maximizing `x + y`, slot 1 the point at the first index minimizing
`np.diff = y - x`, slot 3 the point at the first index maximizing `y - x`. -/
def sort_quadrilateral_corners (p0 p1 p2 p3 : Pt) : Pt × Pt × Pt × Pt :=
  (sel4 (argmin4 (psum p0) (psum p1) (psum p2) (psum p3)) p0 p1 p2 p3,
   sel4 (argmin4 (pdiff p0) (pdiff p1) (pdiff p2) (pdiff p3)) p0 p1 p2 p3,
   sel4 (argmax4 (psum p0) (psum p1) (psum p2) (psum p3)) p0 p1 p2 p3,
   sel4 (argmax4 (pdiff p0) (pdiff p1) (pdiff p2) (pdiff p3)) p0 p1 p2 p3)

/-- Cross product of two displacement vectors. -/
def cross (u v : Pt) : Int := u.1 * v.2 - u.2 * v.1

/-- The cyclic sequence `p, q, r, s` traces a strictly convex, non-degenerate
quadrilateral: the cross products of consecutive edge vectors all have the
same strict sign. -/
def ConvexCyclic (p q r s : Pt) : Prop :=
  (0 < cross (q - p) (r - q) ∧ 0 < cross (r - q) (s - r) ∧
   0 < cross (s - r) (p - s) ∧ 0 < cross (p - s) (q - p)) ∨
  (cross (q - p) (r - q) < 0 ∧ cross (r - q) (s - r) < 0 ∧
   cross (s - r) (p - s) < 0 ∧ cross (p - s) (q - p) < 0)

instance (p q r s : Pt) : Decidable (ConvexCyclic p q r s) := by
  unfold ConvexCyclic; infer_instance

/-- Among the four points, every point attaining the minimum of `f` is `q`:
`q` is the unique minimizer of `f` (as a point; coinciding copies of `q`
itself are allowed). -/
def SoleMinimizer (f : Pt → Int) (p0 p1 p2 p3 q : Pt) : Prop :=
  ((f p0 ≤ f p1 ∧ f p0 ≤ f p2 ∧ f p0 ≤ f p3) → p0 = q) ∧
  ((f p1 ≤ f p0 ∧ f p1 ≤ f p2 ∧ f p1 ≤ f p3) → p1 = q) ∧
  ((f p2 ≤ f p0 ∧ f p2 ≤ f p1 ∧ f p2 ≤ f p3) → p2 = q) ∧
  ((f p3 ≤ f p0 ∧ f p3 ≤ f p1 ∧ f p3 ≤ f p2) → p3 = q)

/-- Among the four points, every point attaining the maximum of `f` is `q`. -/
def SoleMaximizer (f : Pt → Int) (p0 p1 p2 p3 q : Pt) : Prop :=
  ((f p1 ≤ f p0 ∧ f p2 ≤ f p0 ∧ f p3 ≤ f p0) → p0 = q) ∧
  ((f p0 ≤ f p1 ∧ f p2 ≤ f p1 ∧ f p3 ≤ f p1) → p1 = q) ∧
  ((f p0 ≤ f p2 ∧ f p1 ≤ f p2 ∧ f p3 ≤ f p2) → p2 = q) ∧
  ((f p0 ≤ f p3 ∧ f p1 ≤ f p3 ∧ f p2 ≤ f p3) → p3 = q)

instance (f : Pt → Int) (p0 p1 p2 p3 q : Pt) :
    Decidable (SoleMinimizer f p0 p1 p2 p3 q) := by
  unfold SoleMinimizer; infer_instance

instance (f : Pt → Int) (p0 p1 p2 p3 q : Pt) :
    Decidable (SoleMaximizer f p0 p1 p2 p3 q) := by
  unfold SoleMaximizer; infer_instance

lemma min4_cases (a b c d : Int) :
    (a ≤ b ∧ a ≤ c ∧ a ≤ d) ∨ (b ≤ a ∧ b ≤ c ∧ b ≤ d) ∨
    (c ≤ a ∧ c ≤ b ∧ c ≤ d) ∨ (d ≤ a ∧ d ≤ b ∧ d ≤ c) := by
  omega

lemma max4_cases (a b c d : Int) :
    (b ≤ a ∧ c ≤ a ∧ d ≤ a) ∨ (a ≤ b ∧ c ≤ b ∧ d ≤ b) ∨
    (a ≤ c ∧ b ≤ c ∧ d ≤ c) ∨ (a ≤ d ∧ b ≤ d ∧ c ≤ d) := by
  omega

lemma sel4_argmin4_eq (s0 s1 s2 s3 : Int) (p0 p1 p2 p3 q : Pt)
    (h0 : s0 ≤ s1 → s0 ≤ s2 → s0 ≤ s3 → p0 = q)
    (h1 : s1 ≤ s0 → s1 ≤ s2 → s1 ≤ s3 → p1 = q)
    (h2 : s2 ≤ s0 → s2 ≤ s1 → s2 ≤ s3 → p2 = q)
    (h3 : s3 ≤ s0 → s3 ≤ s1 → s3 ≤ s2 → p3 = q) :
    sel4 (argmin4 s0 s1 s2 s3) p0 p1 p2 p3 = q := by
  unfold argmin4
  split_ifs with c0 c1 c2
  · exact h0 c0.1 c0.2.1 c0.2.2
  · exact h1 (by omega) c1.1 c1.2
  · exact h2 (by omega) (by omega) c2
  · exact h3 (by omega) (by omega) (by omega)

lemma sel4_argmax4_eq (s0 s1 s2 s3 : Int) (p0 p1 p2 p3 q : Pt)
    (h0 : s1 ≤ s0 → s2 ≤ s0 → s3 ≤ s0 → p0 = q)
    (h1 : s0 ≤ s1 → s2 ≤ s1 → s3 ≤ s1 → p1 = q)
    (h2 : s0 ≤ s2 → s1 ≤ s2 → s3 ≤ s2 → p2 = q)
    (h3 : s0 ≤ s3 → s1 ≤ s3 → s2 ≤ s3 → p3 = q) :
    sel4 (argmax4 s0 s1 s2 s3) p0 p1 p2 p3 = q := by
  unfold argmax4
  split_ifs with c0 c1 c2
  · exact h0 c0.1 c0.2.1 c0.2.2
  · exact h1 (by omega) c1.1 c1.2
  · exact h2 (by omega) (by omega) c2
  · exact h3 (by omega) (by omega) (by omega)

/-- Core characterization of `sort_quadrilateral_corners`: whenever each of
the four relevant extrema is attained by a unique point, the output is
`(min x+y, max x−y, max x+y, min x−y)`. -/
lemma sortQuad_eq_of_extrema (p0 p1 p2 p3 tl tr br bl : Pt)
    (htl : SoleMinimizer psum p0 p1 p2 p3 tl)
    (htr : SoleMaximizer xmy p0 p1 p2 p3 tr)
    (hbr : SoleMaximizer psum p0 p1 p2 p3 br)
    (hbl : SoleMinimizer xmy p0 p1 p2 p3 bl) :
    sort_quadrilateral_corners p0 p1 p2 p3 = (tl, tr, br, bl) := by
  obtain ⟨a0, a1, a2, a3⟩ := htl
  obtain ⟨b0, b1, b2, b3⟩ := htr
  obtain ⟨c0, c1, c2, c3⟩ := hbr
  obtain ⟨d0, d1, d2, d3⟩ := hbl
  simp only [psum, pdiff, xmy] at a0 a1 a2 a3 b0 b1 b2 b3 c0 c1 c2 c3 d0 d1 d2 d3
  unfold sort_quadrilateral_corners
  simp only [psum, pdiff]
  refine Prod.ext ?_ (Prod.ext ?_ (Prod.ext ?_ ?_)) <;> simp only
  · exact sel4_argmin4_eq _ _ _ _ _ _ _ _ _
      (fun u v w => a0 ⟨u, v, w⟩) (fun u v w => a1 ⟨u, v, w⟩)
      (fun u v w => a2 ⟨u, v, w⟩) (fun u v w => a3 ⟨u, v, w⟩)
  · exact sel4_argmin4_eq _ _ _ _ _ _ _ _ _
      (fun u v w => b0 ⟨by omega, by omega, by omega⟩)
      (fun u v w => b1 ⟨by omega, by omega, by omega⟩)
      (fun u v w => b2 ⟨by omega, by omega, by omega⟩)
      (fun u v w => b3 ⟨by omega, by omega, by omega⟩)
  · exact sel4_argmax4_eq _ _ _ _ _ _ _ _ _
      (fun u v w => c0 ⟨u, v, w⟩) (fun u v w => c1 ⟨u, v, w⟩)
      (fun u v w => c2 ⟨u, v, w⟩) (fun u v w => c3 ⟨u, v, w⟩)
  · exact sel4_argmax4_eq _ _ _ _ _ _ _ _ _
      (fun u v w => d0 ⟨by omega, by omega, by omega⟩)
      (fun u v w => d1 ⟨by omega, by omega, by omega⟩)
      (fun u v w => d2 ⟨by omega, by omega, by omega⟩)
      (fun u v w => d3 ⟨by omega, by omega, by omega⟩)

lemma soleMin_attains (f : Pt → Int) (p0 p1 p2 p3 q : Pt)
    (h : SoleMinimizer f p0 p1 p2 p3 q) :
    (q = p0 ∨ q = p1 ∨ q = p2 ∨ q = p3) ∧
    f q ≤ f p0 ∧ f q ≤ f p1 ∧ f q ≤ f p2 ∧ f q ≤ f p3 := by
  obtain ⟨h0, h1, h2, h3⟩ := h
  rcases min4_cases (f p0) (f p1) (f p2) (f p3) with
      ⟨u, v, w⟩ | ⟨u, v, w⟩ | ⟨u, v, w⟩ | ⟨u, v, w⟩
  · have e := h0 ⟨u, v, w⟩; subst e
    exact ⟨Or.inl rfl, le_refl _, u, v, w⟩
  · have e := h1 ⟨u, v, w⟩; subst e
    exact ⟨Or.inr (Or.inl rfl), u, le_refl _, v, w⟩
  · have e := h2 ⟨u, v, w⟩; subst e
    exact ⟨Or.inr (Or.inr (Or.inl rfl)), u, v, le_refl _, w⟩
  · have e := h3 ⟨u, v, w⟩; subst e
    exact ⟨Or.inr (Or.inr (Or.inr rfl)), u, v, w, le_refl _⟩

lemma soleMax_attains (f : Pt → Int) (p0 p1 p2 p3 q : Pt)
    (h : SoleMaximizer f p0 p1 p2 p3 q) :
    (q = p0 ∨ q = p1 ∨ q = p2 ∨ q = p3) ∧
    f p0 ≤ f q ∧ f p1 ≤ f q ∧ f p2 ≤ f q ∧ f p3 ≤ f q := by
  obtain ⟨h0, h1, h2, h3⟩ := h
  rcases max4_cases (f p0) (f p1) (f p2) (f p3) with
      ⟨u, v, w⟩ | ⟨u, v, w⟩ | ⟨u, v, w⟩ | ⟨u, v, w⟩
  · have e := h0 ⟨u, v, w⟩; subst e
    exact ⟨Or.inl rfl, le_refl _, u, v, w⟩
  · have e := h1 ⟨u, v, w⟩; subst e
    exact ⟨Or.inr (Or.inl rfl), u, le_refl _, v, w⟩
  · have e := h2 ⟨u, v, w⟩; subst e
    exact ⟨Or.inr (Or.inr (Or.inl rfl)), u, v, le_refl _, w⟩
  · have e := h3 ⟨u, v, w⟩; subst e
    exact ⟨Or.inr (Or.inr (Or.inr rfl)), u, v, w, le_refl _⟩

lemma soleMin_transfer (f : Pt → Int) (p0 p1 p2 p3 q r : Pt)
    (hq : SoleMinimizer f p0 p1 p2 p3 q)
    (hr : r = p0 ∨ r = p1 ∨ r = p2 ∨ r = p3)
    (hle : f r ≤ f q) : r = q := by
  obtain ⟨_, b0, b1, b2, b3⟩ := soleMin_attains f p0 p1 p2 p3 q hq
  obtain ⟨h0, h1, h2, h3⟩ := hq
  rcases hr with e | e | e | e
  · subst e; exact h0 ⟨le_trans hle b1, le_trans hle b2, le_trans hle b3⟩
  · subst e; exact h1 ⟨le_trans hle b0, le_trans hle b2, le_trans hle b3⟩
  · subst e; exact h2 ⟨le_trans hle b0, le_trans hle b1, le_trans hle b3⟩
  · subst e; exact h3 ⟨le_trans hle b0, le_trans hle b1, le_trans hle b2⟩

lemma soleMax_transfer (f : Pt → Int) (p0 p1 p2 p3 q r : Pt)
    (hq : SoleMaximizer f p0 p1 p2 p3 q)
    (hr : r = p0 ∨ r = p1 ∨ r = p2 ∨ r = p3)
    (hge : f q ≤ f r) : r = q := by
  obtain ⟨_, b0, b1, b2, b3⟩ := soleMax_attains f p0 p1 p2 p3 q hq
  obtain ⟨h0, h1, h2, h3⟩ := hq
  rcases hr with e | e | e | e
  · subst e; exact h0 ⟨le_trans b1 hge, le_trans b2 hge, le_trans b3 hge⟩
  · subst e; exact h1 ⟨le_trans b0 hge, le_trans b2 hge, le_trans b3 hge⟩
  · subst e; exact h2 ⟨le_trans b0 hge, le_trans b1 hge, le_trans b3 hge⟩
  · subst e; exact h3 ⟨le_trans b0 hge, le_trans b1 hge, le_trans b2 hge⟩

lemma sel4_mem_list (i : Nat) (p0 p1 p2 p3 : Pt) :
    sel4 i p0 p1 p2 p3 ∈ [p0, p1, p2, p3] := by
  rcases i with _ | _ | _ | i <;> simp [sel4]

/-- C1 (amended): for four corner points such that each of the four extrema
(min and max of `x+y`, min and max of `x−y`) is attained by a unique point,
the corner ordering returns position 0 = the unique minimizer of `x+y`,
position 2 = the unique maximizer of `x+y`, position 1 = the unique
*maximizer* of `x−y`, and position 3 = the unique *minimizer* of `x−y`
(the roles of min and max of `x−y` are swapped relative to the claim). -/
theorem C1_sort_corners_extrema (p0 p1 p2 p3 tl tr br bl : Pt)
    (htl : SoleMinimizer psum p0 p1 p2 p3 tl)
    (htr : SoleMaximizer xmy p0 p1 p2 p3 tr)
    (hbr : SoleMaximizer psum p0 p1 p2 p3 br)
    (hbl : SoleMinimizer xmy p0 p1 p2 p3 bl) :
    sort_quadrilateral_corners p0 p1 p2 p3 = (tl, tr, br, bl) :=
  sortQuad_eq_of_extrema p0 p1 p2 p3 tl tr br bl htl htr hbr hbl

/-- Witness for C1: the axis-aligned square `(0,0), (2,0), (2,2), (0,2)`
satisfies the uniqueness hypotheses, and the theorem evaluates the corner
ordering on it. -/
theorem C1_sort_corners_extrema_witness :
    SoleMinimizer psum (0, 0) (2, 0) (2, 2) (0, 2) (0, 0) ∧
    SoleMaximizer xmy (0, 0) (2, 0) (2, 2) (0, 2) (2, 0) ∧
    SoleMaximizer psum (0, 0) (2, 0) (2, 2) (0, 2) (2, 2) ∧
    SoleMinimizer xmy (0, 0) (2, 0) (2, 2) (0, 2) (0, 2) ∧
    sort_quadrilateral_corners (0, 0) (2, 0) (2, 2) (0, 2)
      = ((0, 0), (2, 0), (2, 2), (0, 2)) :=
  ⟨by decide, by decide, by decide, by decide,
   C1_sort_corners_extrema (0, 0) (2, 0) (2, 2) (0, 2) (0, 0) (2, 0) (2, 2) (0, 2)
     (by decide) (by decide) (by decide) (by decide)⟩

/-- C1 counterexample: the convex, non-degenerate axis-aligned square
`(0,0), (2,0), (2,2), (0,2)` has `(0,2)` as the unique point minimizing
`x−y`, yet output position 1 (claimed to be that minimizer) is `(2,0)`. -/
theorem C1_counterexample :
    ConvexCyclic (0, 0) (2, 0) (2, 2) (0, 2) ∧
    SoleMinimizer xmy (0, 0) (2, 0) (2, 2) (0, 2) (0, 2) ∧
    (sort_quadrilateral_corners (0, 0) (2, 0) (2, 2) (0, 2)).2.1 ≠ (0, 2) := by
  decide

/-- C8 (amended): the corner ordering is idempotent for quadrilaterals whose
four extrema (min and max of `x+y` and of `x−y`) are each attained by a
unique point.  (Convexity alone does not guarantee this: ties in `x+y` can
break idempotence, see the counterexample.) -/
theorem C8_sort_corners_idempotent (p0 p1 p2 p3 tl tr br bl : Pt)
    (htl : SoleMinimizer psum p0 p1 p2 p3 tl)
    (htr : SoleMaximizer xmy p0 p1 p2 p3 tr)
    (hbr : SoleMaximizer psum p0 p1 p2 p3 br)
    (hbl : SoleMinimizer xmy p0 p1 p2 p3 bl) :
    sort_quadrilateral_corners
        (sort_quadrilateral_corners p0 p1 p2 p3).1
        (sort_quadrilateral_corners p0 p1 p2 p3).2.1
        (sort_quadrilateral_corners p0 p1 p2 p3).2.2.1
        (sort_quadrilateral_corners p0 p1 p2 p3).2.2.2
      = sort_quadrilateral_corners p0 p1 p2 p3 := by
  have e := sortQuad_eq_of_extrema p0 p1 p2 p3 tl tr br bl htl htr hbr hbl
  rw [e]
  show sort_quadrilateral_corners tl tr br bl = (tl, tr, br, bl)
  have memTL := (soleMin_attains psum p0 p1 p2 p3 tl htl).1
  have memTR := (soleMax_attains xmy p0 p1 p2 p3 tr htr).1
  have memBR := (soleMax_attains psum p0 p1 p2 p3 br hbr).1
  have memBL := (soleMin_attains xmy p0 p1 p2 p3 bl hbl).1
  refine sortQuad_eq_of_extrema tl tr br bl tl tr br bl ?_ ?_ ?_ ?_
  · exact ⟨fun _ => rfl,
      fun h => soleMin_transfer psum p0 p1 p2 p3 tl tr htl memTR h.1,
      fun h => soleMin_transfer psum p0 p1 p2 p3 tl br htl memBR h.1,
      fun h => soleMin_transfer psum p0 p1 p2 p3 tl bl htl memBL h.1⟩
  · exact ⟨fun h => soleMax_transfer xmy p0 p1 p2 p3 tr tl htr memTL h.1,
      fun _ => rfl,
      fun h => soleMax_transfer xmy p0 p1 p2 p3 tr br htr memBR h.2.1,
      fun h => soleMax_transfer xmy p0 p1 p2 p3 tr bl htr memBL h.2.1⟩
  · exact ⟨fun h => soleMax_transfer psum p0 p1 p2 p3 br tl hbr memTL h.2.1,
      fun h => soleMax_transfer psum p0 p1 p2 p3 br tr hbr memTR h.2.1,
      fun _ => rfl,
      fun h => soleMax_transfer psum p0 p1 p2 p3 br bl hbr memBL h.2.2⟩
  · exact ⟨fun h => soleMin_transfer xmy p0 p1 p2 p3 bl tl hbl memTL h.2.2,
      fun h => soleMin_transfer xmy p0 p1 p2 p3 bl tr hbl memTR h.2.2,
      fun h => soleMin_transfer xmy p0 p1 p2 p3 bl br hbl memBR h.2.2,
      fun _ => rfl⟩

/-- Witness for C8: idempotence evaluated on the axis-aligned square. -/
theorem C8_sort_corners_idempotent_witness :
    SoleMinimizer psum (0, 0) (2, 0) (2, 2) (0, 2) (0, 0) ∧
    sort_quadrilateral_corners
        (sort_quadrilateral_corners (0, 0) (2, 0) (2, 2) (0, 2)).1
        (sort_quadrilateral_corners (0, 0) (2, 0) (2, 2) (0, 2)).2.1
        (sort_quadrilateral_corners (0, 0) (2, 0) (2, 2) (0, 2)).2.2.1
        (sort_quadrilateral_corners (0, 0) (2, 0) (2, 2) (0, 2)).2.2.2
      = sort_quadrilateral_corners (0, 0) (2, 0) (2, 2) (0, 2) :=
  ⟨by decide,
   C8_sort_corners_idempotent (0, 0) (2, 0) (2, 2) (0, 2) (0, 0) (2, 0) (2, 2) (0, 2)
     (by decide) (by decide) (by decide) (by decide)⟩

/-- C8 counterexample: the points `(0,0), (3,3), (5,1), (1,4)` form (in the
cyclic order `(0,0), (5,1), (3,3), (1,4)`) a strictly convex, non-degenerate
quadrilateral, yet re-ordering the ordered output changes it: `(3,3)` and
`(5,1)` tie on `x+y`, so the second pass selects `(5,1)` (now placed earlier)
as the bottom-right corner. -/
theorem C8_counterexample :
    ConvexCyclic (0, 0) (5, 1) (3, 3) (1, 4) ∧
    [((0 : Int), (0 : Int)), (3, 3), (5, 1), (1, 4)].Perm
      [((0 : Int), (0 : Int)), (5, 1), (3, 3), (1, 4)] ∧
    sort_quadrilateral_corners
        (sort_quadrilateral_corners (0, 0) (3, 3) (5, 1) (1, 4)).1
        (sort_quadrilateral_corners (0, 0) (3, 3) (5, 1) (1, 4)).2.1
        (sort_quadrilateral_corners (0, 0) (3, 3) (5, 1) (1, 4)).2.2.1
        (sort_quadrilateral_corners (0, 0) (3, 3) (5, 1) (1, 4)).2.2.2
      ≠ sort_quadrilateral_corners (0, 0) (3, 3) (5, 1) (1, 4) := by
  refine ⟨by decide, ?_, by decide⟩
  decide

/-- Python `str.isdigit` restricted to the ASCII alphabet handled by the
pipeline (`True` exactly for nonempty strings of decimal digits). -/
def pyIsDigitStr (s : List Char) : Bool := !s.isEmpty && s.all Char.isDigit

/-- The Python slice `s[a:b]` (for `a ≤ b` within the usual in-range uses). -/
def strSlice (s : List Char) (a b : Nat) : List Char := (s.drop a).take (b - a)

/-- Python `int(...)` on a string of ASCII digits. -/
def digitStrVal (s : List Char) : Nat :=
  s.foldl (fun acc c => 10 * acc + (c.toNat - 48)) 0

/-- The `valid_governorate_codes` set from
`calculate_egyptian_id_confidence_score`. -/
def govCodes : List (List Char) :=
  [['0', '1'], ['0', '2'], ['0', '3'], ['0', '4'],
   ['1', '1'], ['1', '2'], ['1', '3'], ['1', '4'], ['1', '5'],
   ['1', '6'], ['1', '7'], ['1', '8'], ['1', '9'],
   ['2', '1'], ['2', '2'], ['2', '3'], ['2', '4'], ['2', '5'],
   ['2', '6'], ['2', '7'], ['2', '8'], ['2', '9'],
   ['3', '1'], ['3', '2'], ['3', '3'], ['3', '4'], ['3', '5'],
   ['8', '8']]

/-- Century-digit contribution: `+0.10` when the first character is `'2'` or
`'3'`. -/
def centuryBonus (s : List Char) : ℚ :=
  if 1 ≤ s.length ∧ (s.getD 0 ' ' = '2' ∨ s.getD 0 ' ' = '3') then 10/100 else 0

/-- The common guard of the month and day checks in the source: the string
has at least 7 characters and both `id_number[3:5]` and `id_number[5:7]`
satisfy `str.isdigit`. -/
def monthDayGuard (s : List Char) : Bool :=
  decide (7 ≤ s.length) && pyIsDigitStr (strSlice s 3 5) &&
    pyIsDigitStr (strSlice s 5 7)

/-- Month contribution: `+0.35` when `int(id_number[3:5]) ∈ [1, 12]`. -/
def monthBonus (s : List Char) : ℚ :=
  if monthDayGuard s = true ∧ 1 ≤ digitStrVal (strSlice s 3 5) ∧
      digitStrVal (strSlice s 3 5) ≤ 12
  then 35/100 else 0

/-- Day contribution: `+0.35` when `int(id_number[5:7]) ∈ [1, 31]`. -/
def dayBonus (s : List Char) : ℚ :=
  if monthDayGuard s = true ∧ 1 ≤ digitStrVal (strSlice s 5 7) ∧
      digitStrVal (strSlice s 5 7) ≤ 31
  then 35/100 else 0

/-- Governorate-code contribution: `+0.20` when `id_number[7:9]` is a valid
code. -/
def govBonus (s : List Char) : ℚ :=
  if 9 ≤ s.length ∧ strSlice s 7 9 ∈ govCodes then 20/100 else 0

/-- The function `calculate_egyptian_id_confidence_score` from `card_recognition.py`:
`0` for empty or non-digit input, otherwise the clamped sum of the four
contributions.  The exact decimal weights of the source are carried in `ℚ`. -/
def calculate_egyptian_id_confidence_score (s : List Char) : ℚ :=
  if pyIsDigitStr s = true then
    min (centuryBonus s + monthBonus s + dayBonus s + govBonus s) 1
  else 0

lemma centuryBonus_nonneg (s : List Char) : 0 ≤ centuryBonus s := by
  unfold centuryBonus; split_ifs <;> norm_num

lemma dayBonus_nonneg (s : List Char) : 0 ≤ dayBonus s := by
  unfold dayBonus; split_ifs <;> norm_num

lemma govBonus_nonneg (s : List Char) : 0 ≤ govBonus s := by
  unfold govBonus; split_ifs <;> norm_num

lemma strSlice_ne_nil (s : List Char) (a b : Nat) (ha : a < s.length)
    (hab : a < b) : strSlice s a b ≠ [] := by
  intro h
  have hl := congrArg List.length h
  simp only [strSlice, List.length_take, List.length_drop, List.length_nil] at hl
  omega

lemma pyIsDigitStr_slice (s : List Char) (a b : Nat)
    (hd : s.all Char.isDigit = true) (hne : strSlice s a b ≠ []) :
    pyIsDigitStr (strSlice s a b) = true := by
  unfold pyIsDigitStr
  rw [Bool.and_eq_true]
  constructor
  · cases h : strSlice s a b with
    | nil => exact absurd h hne
    | cons x xs => simp [List.isEmpty]
  · rw [List.all_eq_true] at hd ⊢
    intro c hc
    exact hd c (List.drop_subset a s (List.take_subset _ _ hc))

lemma pyIsDigitStr_of_digits (s : List Char) (hd : s.all Char.isDigit = true)
    (hne : s ≠ []) : pyIsDigitStr s = true := by
  unfold pyIsDigitStr
  rw [Bool.and_eq_true]
  refine ⟨?_, hd⟩
  cases s with
  | nil => exact absurd rfl hne
  | cons x xs => simp [List.isEmpty]

/-- C9: the corner ordering is total on arbitrary 4-point inputs (it is a
Lean function, defined for every input, matching the fact that the Python
code indexes only with `argmin` / `argmax` results, which always exist for a
`(4, 2)` array), and each of the four output corners is one of the four
input points — including degenerate inputs with duplicate or collinear
points. -/
theorem C9_sort_corners_output_mem (p0 p1 p2 p3 : Pt) :
    (sort_quadrilateral_corners p0 p1 p2 p3).1 ∈ [p0, p1, p2, p3] ∧
    (sort_quadrilateral_corners p0 p1 p2 p3).2.1 ∈ [p0, p1, p2, p3] ∧
    (sort_quadrilateral_corners p0 p1 p2 p3).2.2.1 ∈ [p0, p1, p2, p3] ∧
    (sort_quadrilateral_corners p0 p1 p2 p3).2.2.2 ∈ [p0, p1, p2, p3] :=
  ⟨sel4_mem_list _ p0 p1 p2 p3, sel4_mem_list _ p0 p1 p2 p3,
   sel4_mem_list _ p0 p1 p2 p3, sel4_mem_list _ p0 p1 p2 p3⟩

/-- C3 (amended): the month contribution requires the string to be at least
7 characters long (the source gates the month and day checks together behind
`len(id_number) >= 7`), not merely 5; under that length, for a digit string
whose substring at positions 3-4 parses into `[1, 12]`, the `+0.35` month
contribution is included and the total score is at least `0.35`. -/
theorem C3_month_bonus (s : List Char) (hd : s.all Char.isDigit = true)
    (hl : 7 ≤ s.length)
    (h1 : 1 ≤ digitStrVal (strSlice s 3 5))
    (h2 : digitStrVal (strSlice s 3 5) ≤ 12) :
    monthBonus s = 35/100 ∧
    (35 : ℚ)/100 ≤ calculate_egyptian_id_confidence_score s := by
  have hg : monthDayGuard s = true := by
    unfold monthDayGuard
    rw [Bool.and_eq_true, Bool.and_eq_true]
    exact ⟨⟨decide_eq_true (by omega),
        pyIsDigitStr_slice s 3 5 hd (strSlice_ne_nil s 3 5 (by omega) (by omega))⟩,
      pyIsDigitStr_slice s 5 7 hd (strSlice_ne_nil s 5 7 (by omega) (by omega))⟩
  have hm : monthBonus s = 35/100 := by
    unfold monthBonus
    rw [if_pos ⟨hg, h1, h2⟩]
  refine ⟨hm, ?_⟩
  have hne : s ≠ [] := by
    intro h; rw [h] at hl; simp at hl
  unfold calculate_egyptian_id_confidence_score
  rw [if_pos (pyIsDigitStr_of_digits s hd hne)]
  refine le_min ?_ (by norm_num)
  have c1 := centuryBonus_nonneg s
  have c3 := dayBonus_nonneg s
  have c4 := govBonus_nonneg s
  rw [hm] at *
  linarith

/-- Witness for C3 (amended) at the 7-digit string `"2990123"`. -/
theorem C3_month_bonus_witness :
    monthBonus "2990123".data = 35/100 ∧
    (35 : ℚ)/100 ≤ calculate_egyptian_id_confidence_score "2990123".data :=
  C3_month_bonus "2990123".data (by decide) (by decide) (by decide) (by decide)

/-- C3 counterexample: `"20112"` is a 5-character digit string whose
substring at positions 3-4 is `"12"`, which parses into `[1, 12]`, yet the
month contribution is `0` and the whole score is `0.10 < 0.35`: the code
requires length at least 7, not 5. -/
theorem C3_counterexample :
    ("20112".data.all Char.isDigit = true) ∧ 5 ≤ "20112".data.length ∧
    1 ≤ digitStrVal (strSlice "20112".data 3 5) ∧
    digitStrVal (strSlice "20112".data 3 5) ≤ 12 ∧
    monthBonus "20112".data = 0 ∧
    calculate_egyptian_id_confidence_score "20112".data = 10/100 ∧
    ¬ ((35 : ℚ)/100 ≤ calculate_egyptian_id_confidence_score "20112".data) := by
  refine ⟨by decide, by decide, by decide, by decide, ?_, ?_, ?_⟩
  · simp +decide [monthBonus, monthDayGuard]
  · simp +decide [calculate_egyptian_id_confidence_score, centuryBonus,
      monthBonus, dayBonus, govBonus, monthDayGuard]
    norm_num
  · simp +decide [calculate_egyptian_id_confidence_score, centuryBonus,
      monthBonus, dayBonus, govBonus, monthDayGuard]
    norm_num

/-- The `str.maketrans` table of `validate_id_number_region`: Arabic-Indic
and Eastern-Arabic digit glyphs are mapped to ASCII digits; every other
character is left unchanged. -/
def arabicToAscii (c : Char) : Char :=
  match c with
  | '٠' => '0' | '١' => '1' | '٢' => '2' | '٣' => '3' | '٤' => '4'
  | '٥' => '5' | '٦' => '6' | '٧' => '7' | '٨' => '8' | '٩' => '9'
  | '۰' => '0' | '۱' => '1' | '۲' => '2' | '۳' => '3' | '۴' => '4'
  | '۵' => '5' | '۶' => '6' | '۷' => '7' | '۸' => '8' | '۹' => '9'
  | other => other

/-- Digit extraction of `validate_id_number_region`: translate the raw OCR
text, then keep the (ASCII) digit characters. -/
def extractDigits (raw : List Char) : List Char :=
  (raw.map arabicToAscii).filter Char.isDigit

/-- The pure tail of `validate_id_number_region`
(`card_recognition.py`, lines 178-191), applied to the raw OCR text of the
identifier crop: returns `(is_valid_id_number, extracted_digit_string)`
where the gate is `len(extracted_digit_string) >= 12`. -/
def validate_id_number_region (raw : List Char) : Bool × List Char :=
  (decide (12 ≤ (extractDigits raw).length), extractDigits raw)

/-- C5: for every raw OCR text, the validity gate passes exactly when the
extracted digit string has length at least 12; in particular a 14-digit
extraction always passes, an 11-digit extraction always fails, and an
extraction of exactly 12 digits passes. -/
theorem C5_validity_gate (raw : List Char) :
    ((validate_id_number_region raw).1 = true ↔
        12 ≤ (validate_id_number_region raw).2.length) ∧
    ((validate_id_number_region raw).2.length = 14 →
        (validate_id_number_region raw).1 = true) ∧
    ((validate_id_number_region raw).2.length = 11 →
        (validate_id_number_region raw).1 = false) ∧
    ((validate_id_number_region raw).2.length = 12 →
        (validate_id_number_region raw).1 = true) := by
  unfold validate_id_number_region
  refine ⟨by simp, fun h => ?_, fun h => ?_, fun h => ?_⟩ <;> simp only at h ⊢ <;>
    rw [h] <;> decide

/-- Witness for C5 at a 14-digit raw OCR text. -/
theorem C5_validity_gate_witness :
    (validate_id_number_region "29901234567890".data).2.length = 14 ∧
    (validate_id_number_region "29901234567890".data).1 = true :=
  ⟨by decide, (C5_validity_gate "29901234567890".data).2.1 (by decide)⟩

/-- Abstraction of one ranked contour candidate in `find_best_card_contour`:
the outcomes of the external operations performed for it.  `nCorners` is the
vertex count after `approxPolyDP`; `transformThrows` says whether
`extract_and_transform_card` raises; `imageNone` whether it returns `None`
for the standardized card image; `validateThrows` whether
`validate_id_number_region` raises (OCR failure / crop error); `ocrText` is
the raw OCR text obtained when validation runs to completion. -/
structure Cand where
  nCorners : Nat
  transformThrows : Bool
  imageNone : Bool
  validateThrows : Bool
  ocrText : List Char
deriving DecidableEq

/-- Fallback update `if fallback_quadrilateral is None: fallback_quadrilateral = c`. -/
def updateFb (fb : Option Cand) (c : Cand) : Option Cand :=
  match fb with
  | none => some c
  | some f => some f

/-- Record candidate `c` at the front of the transform-attempt trace. -/
def consTrace (c : Cand) (r : Option Cand × Option Cand × List Cand) :
    Option Cand × Option Cand × List Cand :=
  (r.1, r.2.1, c :: r.2.2)

/-- The candidate loop of `find_best_card_contour`
(`card_recognition.py`, lines 293-333), given the ranked candidate list and
the current fallback.  Returns `(best_validated_contour,
fallback_quadrilateral, trace)` where `trace` lists the candidates for which
`extract_and_transform_card` was invoked, in order.  A 4-corner candidate is
first remembered as fallback when none is remembered yet; a raising
transform, a `None` image, a raising validation, or a failing validity gate
all continue with the next candidate; a passing validity gate accepts the
candidate and stops the loop. -/
def contourLoop : List Cand → Option Cand → Option Cand × Option Cand × List Cand
  | [], fb => (none, fb, [])
  | c :: rest, fb =>
    if c.nCorners = 4 then
      if c.transformThrows || c.imageNone || c.validateThrows then
        consTrace c (contourLoop rest (updateFb fb c))
      else if 12 ≤ (extractDigits c.ocrText).length then
        (some c, updateFb fb c, [c])
      else
        consTrace c (contourLoop rest (updateFb fb c))
    else
      contourLoop rest fb

/-- The function `find_best_card_contour` (`card_recognition.py`, lines 263-346): run the
loop; if no candidate was accepted use the fallback quadrilateral; if there
is none either, raise `RuntimeError` ("no suitable quadrilateral contour
found"). -/
def find_best_card_contour (cands : List Cand) : Except Unit Cand :=
  match contourLoop cands none with
  | (some b, _, _) => .ok b
  | (none, some fb, _) => .ok fb
  | (none, none, _) => .error ()

/-- A candidate is accepted by the loop when it reaches and passes the
validity gate: it has 4 corners, its transform does not raise, its image is
produced, its validation does not raise, and at least 12 digits are
extracted. -/
def accepts (c : Cand) : Bool :=
  c.nCorners == 4 && !c.transformThrows && !c.imageNone &&
    !c.validateThrows && decide (12 ≤ (extractDigits c.ocrText).length)

/-- Input of `scan_id_card`, abstracting the image by whether `cv2.imread`
decodes it (`loadOk`) and by the ranked candidate list its edge map
produces, plus the `card_side_type` argument. -/
structure ScanInput where
  loadOk : Bool
  cands : List Cand
  side : String

/-- The fatal failures `scan_id_card` can surface: `ValueError` on image
load, `RuntimeError` from `find_best_card_contour`, the uncaught exception
of the re-applied perspective transform on the chosen contour
(`card_recognition.py`, line 390, outside any try-block), and `ValueError`
on an invalid `card_side_type`. -/
inductive ScanFailure where
  | imageLoad
  | noQuad
  | transformError
  | invalidSide
deriving DecidableEq

/-- The function `scan_id_card` (`card_recognition.py`, lines 349-410): load the image
(raises on failure), find the best card contour (raises when no suitable
quadrilateral exists), then *re-execute* `apply_perspective_correction` on
the chosen contour (lines 389-390) with the same arguments as the in-loop
call — so when the chosen contour is a fallback whose transform raised
inside the loop, the exception re-raises here, uncaught — resize, and only
then branch on `card_side_type`, raising `ValueError` for a side other than
`"front"` or `"back"`.  The chosen candidate stands for the processed card
returned to the caller. -/
def scan_id_card (inp : ScanInput) : Except ScanFailure Cand :=
  if inp.loadOk = false then .error .imageLoad
  else
    match find_best_card_contour inp.cands with
    | .error _ => .error .noQuad
    | .ok b =>
      if b.transformThrows = true then .error .transformError
      else if inp.side = "front" then .ok b
      else if inp.side = "back" then .ok b
      else .error .invalidSide

lemma beq4_true (c : Cand) (hq : c.nCorners = 4) : (c.nCorners == 4) = true := by
  simp [hq]

lemma beq4_false (c : Cand) (hq : ¬ c.nCorners = 4) : (c.nCorners == 4) = false := by
  simp [hq]

lemma contourLoop_fallback (cands : List Cand) (fb : Option Cand) :
    (contourLoop cands fb).2.1 =
      match fb with
      | some f => some f
      | none => cands.find? (fun c => c.nCorners == 4) := by
  induction cands generalizing fb with
  | nil => cases fb <;> simp [contourLoop]
  | cons c rest ih =>
    by_cases hq : c.nCorners = 4
    · have hfind : (c :: rest).find? (fun c => c.nCorners == 4) = some c := by
        simp [List.find?, beq4_true c hq]
      by_cases ht : (c.transformThrows || c.imageNone || c.validateThrows) = true
      · rw [show contourLoop (c :: rest) fb
            = consTrace c (contourLoop rest (updateFb fb c)) by
          simp [contourLoop, hq, ht]]
        simp only [consTrace]
        rw [ih]
        cases fb with
        | some f => simp [updateFb]
        | none => simp [updateFb, hfind]
      · by_cases hg : 12 ≤ (extractDigits c.ocrText).length
        · rw [show contourLoop (c :: rest) fb = (some c, updateFb fb c, [c]) by
            simp [contourLoop, hq, ht, hg]]
          cases fb with
          | some f => simp [updateFb]
          | none => simp [updateFb, hfind]
        · rw [show contourLoop (c :: rest) fb
              = consTrace c (contourLoop rest (updateFb fb c)) by
            simp [contourLoop, hq, ht, hg]]
          simp only [consTrace]
          rw [ih]
          cases fb with
          | some f => simp [updateFb]
          | none => simp [updateFb, hfind]
    · rw [show contourLoop (c :: rest) fb = contourLoop rest fb by
        simp [contourLoop, hq]]
      rw [ih]
      cases fb with
      | some f => rfl
      | none => simp [List.find?, beq4_false c hq]

lemma accepts_true_iff (c : Cand) :
    accepts c = true ↔
      c.nCorners = 4 ∧ c.transformThrows = false ∧ c.imageNone = false ∧
        c.validateThrows = false ∧ 12 ≤ (extractDigits c.ocrText).length := by
  obtain ⟨n, t, i, v, o⟩ := c
  cases t <;> cases i <;> cases v <;> simp [accepts]

lemma accepts_false_of_fail (c : Cand)
    (ht : (c.transformThrows || c.imageNone || c.validateThrows) = true) :
    accepts c = false := by
  cases hb : accepts c with
  | false => rfl
  | true =>
    obtain ⟨_, h1, h2, h3, _⟩ := (accepts_true_iff c).mp hb
    rw [h1, h2, h3] at ht
    simp at ht

lemma contourLoop_accept_eq (cands : List Cand) :
    ∀ (fb : Option Cand) (b : Cand) (fbout : Option Cand) (tr : List Cand),
      contourLoop cands fb = (some b, fbout, tr) →
      cands.find? accepts = some b ∧
      ∃ pre post, cands = pre ++ b :: post ∧
        tr = pre.filter (fun c => c.nCorners == 4) ++ [b] := by
  induction cands with
  | nil => intro fb b fbout tr h; simp [contourLoop] at h
  | cons c rest ih =>
    intro fb b fbout tr h
    by_cases hq : c.nCorners = 4
    · by_cases ht : (c.transformThrows || c.imageNone || c.validateThrows) = true
      · rw [show contourLoop (c :: rest) fb
            = consTrace c (contourLoop rest (updateFb fb c)) by
          simp [contourLoop, hq, ht]] at h
        rcases hc : contourLoop rest (updateFb fb c) with ⟨b0, f0, t0⟩
        rw [hc] at h
        simp only [consTrace, Prod.mk.injEq] at h
        obtain ⟨hb0, _, htr⟩ := h
        rw [hb0] at hc
        obtain ⟨hfind, pre, post, hsplit, htrace⟩ := ih (updateFb fb c) b f0 t0 hc
        refine ⟨?_, c :: pre, post, by rw [hsplit, List.cons_append], ?_⟩
        · simp [List.find?, accepts_false_of_fail c ht, hfind]
        · rw [← htr, htrace, List.filter_cons, beq4_true c hq]
          simp
      · by_cases hg : 12 ≤ (extractDigits c.ocrText).length
        · rw [show contourLoop (c :: rest) fb = (some c, updateFb fb c, [c]) by
            simp [contourLoop, hq, ht, hg]] at h
          simp only [Prod.mk.injEq] at h
          obtain ⟨hb, _, htr⟩ := h
          obtain hb' : c = b := Option.some.inj hb
          subst hb'
          have h3 : (c.transformThrows = false ∧ c.imageNone = false) ∧
              c.validateThrows = false := by
            revert ht
            cases c.transformThrows <;> cases c.imageNone <;>
              cases c.validateThrows <;> simp
          have hacc : accepts c = true :=
            (accepts_true_iff c).mpr ⟨hq, h3.1.1, h3.1.2, h3.2, hg⟩
          refine ⟨by simp [List.find?, hacc], [], rest, rfl, by simp [← htr]⟩
        · rw [show contourLoop (c :: rest) fb
              = consTrace c (contourLoop rest (updateFb fb c)) by
            simp [contourLoop, hq, ht, hg]] at h
          rcases hc : contourLoop rest (updateFb fb c) with ⟨b0, f0, t0⟩
          rw [hc] at h
          simp only [consTrace, Prod.mk.injEq] at h
          obtain ⟨hb0, _, htr⟩ := h
          rw [hb0] at hc
          obtain ⟨hfind, pre, post, hsplit, htrace⟩ := ih (updateFb fb c) b f0 t0 hc
          have hacc : accepts c = false := by simp [accepts, hg]
          refine ⟨?_, c :: pre, post, by rw [hsplit, List.cons_append], ?_⟩
          · simp [List.find?, hacc, hfind]
          · rw [← htr, htrace, List.filter_cons, beq4_true c hq]
            simp
    · rw [show contourLoop (c :: rest) fb = contourLoop rest fb by
        simp [contourLoop, hq]] at h
      obtain ⟨hfind, pre, post, hsplit, htrace⟩ := ih fb b fbout tr h
      have hacc : accepts c = false := by simp [accepts, hq]
      refine ⟨?_, c :: pre, post, by rw [hsplit, List.cons_append], ?_⟩
      · simp [List.find?, hacc, hfind]
      · rw [htrace, List.filter_cons, beq4_false c hq]
        simp

/-- A well-behaved quadrilateral candidate with a 12-digit OCR reading. -/
def okCand : Cand := ⟨4, false, false, false, "299012345678".data⟩

/-- A second accepted candidate, distinct from `okCand`. -/
def okCand2 : Cand := ⟨4, false, false, false, "299012345679".data⟩

/-- A quadrilateral candidate whose perspective transform raises. -/
def throwCand : Cand := ⟨4, true, false, false, []⟩

/-- A quadrilateral candidate that normalizes fine but reads too few
digits to pass the validity gate. -/
def shortCand : Cand := ⟨4, false, false, false, "123".data⟩

/-- C2 (amended): the fallback candidate of the selection loop is the first
4-point candidate of the ranked list — remembered before normalization is
attempted, hence kept even when its own normalization fails — and when no
candidate is accepted but such a fallback exists, the loop returns it. -/
theorem C2_fallback_choice (cands : List Cand) :
    (contourLoop cands none).2.1 = cands.find? (fun c => c.nCorners == 4) ∧
    (∀ fb, (contourLoop cands none).1 = none →
      cands.find? (fun c => c.nCorners == 4) = some fb →
      find_best_card_contour cands = .ok fb) := by
  have hfb := contourLoop_fallback cands none
  refine ⟨hfb, fun fb h1 h2 => ?_⟩
  unfold find_best_card_contour
  rcases he : contourLoop cands none with ⟨b, f, tr⟩
  rw [he] at h1 hfb
  simp only at h1 hfb
  rw [h1] at *
  rw [hfb, h2]

/-- Witness for C2 (amended): a single candidate that normalizes but fails
the gate is remembered as fallback and returned. -/
theorem C2_fallback_choice_witness :
    (contourLoop [shortCand] none).2.1
      = [shortCand].find? (fun c => c.nCorners == 4) ∧
    find_best_card_contour [shortCand] = .ok shortCand :=
  ⟨(C2_fallback_choice [shortCand]).1,
   (C2_fallback_choice [shortCand]).2 shortCand (by decide) (by decide)⟩

/-- C2 counterexample: with a first quadrilateral whose normalization
raises, followed by one whose normalization succeeds (but which fails the
gate), the loop returns the *first* quadrilateral — not the first candidate
whose normalization succeeds, as the claim states. -/
theorem C2_counterexample :
    find_best_card_contour [throwCand, shortCand] = .ok throwCand ∧
    throwCand.transformThrows = true ∧
    shortCand.transformThrows = false ∧ shortCand.imageNone = false ∧
    shortCand.validateThrows = false ∧
    throwCand ≠ shortCand :=
  ⟨by rfl, by decide, by decide, by decide, by decide, by decide⟩

/-- C4: when the selection loop accepts a candidate `b`, then `b` is the
first candidate of the ranked (area-descending) list that reaches and
passes the validity gate, and the transform/validation trace consists
exactly of the 4-point candidates ranked before `b` followed by `b` itself:
no candidate ranked after `b` is ever normalized or validated. -/
theorem C4_short_circuit (cands : List Cand) (b : Cand) (fbout : Option Cand)
    (tr : List Cand) (h : contourLoop cands none = (some b, fbout, tr)) :
    cands.find? accepts = some b ∧
    ∃ pre post, cands = pre ++ b :: post ∧
      tr = pre.filter (fun c => c.nCorners == 4) ++ [b] :=
  contourLoop_accept_eq cands none b fbout tr h

/-- Witness for C4: with two accepted-worthy candidates the loop stops at
the first; the second is never reached. -/
theorem C4_short_circuit_witness :
    [okCand, okCand2].find? accepts = some okCand ∧
    ∃ pre post, [okCand, okCand2] = pre ++ okCand :: post ∧
      [okCand] = pre.filter (fun c => c.nCorners == 4) ++ [okCand] :=
  C4_short_circuit [okCand, okCand2] okCand (some okCand) [okCand] (by decide)

lemma find_best_error_iff (cands : List Cand) :
    find_best_card_contour cands = .error () ↔
      (contourLoop cands none).1 = none ∧ (contourLoop cands none).2.1 = none := by
  unfold find_best_card_contour
  rcases h : contourLoop cands none with ⟨b0, f0, t0⟩
  cases b0 <;> cases f0 <;> simp

/-- C7 (amended): `scan_id_card` surfaces exactly four fatal failures —
image-load failure, no-suitable-quadrilateral (raised exactly when the loop
accepts no candidate and no fallback quadrilateral exists), the uncaught
exception of the perspective transform re-applied at line 390 to the chosen
contour (raised exactly when a contour is chosen whose transform raises, as
happens for a fallback that raised inside the loop), and `ValueError` for an
invalid card-side argument.  The claim names only the first two.
Per-candidate failures (transform raises, validation raises) never abort the
loop: it continues with the next candidate. -/
theorem C7_fatal_failures :
    (∀ inp e, scan_id_card inp = .error e →
        e = .imageLoad ∨ e = .noQuad ∨ e = .transformError ∨ e = .invalidSide) ∧
    (∀ inp, scan_id_card inp = .error .noQuad ↔
        inp.loadOk = true ∧ (contourLoop inp.cands none).1 = none ∧
          (contourLoop inp.cands none).2.1 = none) ∧
    (∀ inp, scan_id_card inp = .error .transformError ↔
        inp.loadOk = true ∧ ∃ b, find_best_card_contour inp.cands = .ok b ∧
          b.transformThrows = true) ∧
    (∀ c rest fb, c.nCorners = 4 →
        (c.transformThrows = true ∨ c.validateThrows = true) →
        contourLoop (c :: rest) fb
          = consTrace c (contourLoop rest (updateFb fb c))) := by
  refine ⟨fun inp e h => ?_, fun inp => ?_, fun inp => ?_, fun c rest fb hq hf => ?_⟩
  · unfold scan_id_card at h
    by_cases hl : inp.loadOk = false
    · rw [if_pos hl] at h
      exact Or.inl (Except.error.inj h).symm
    · rw [if_neg hl] at h
      rcases hbest : find_best_card_contour inp.cands with u | b <;> rw [hbest] at h
      · exact Or.inr (Or.inl (Except.error.inj h).symm)
      · replace h :
            (if b.transformThrows = true then Except.error ScanFailure.transformError
              else if inp.side = "front" then Except.ok b
              else if inp.side = "back" then Except.ok b
              else Except.error ScanFailure.invalidSide) = Except.error e := h
        by_cases ht : b.transformThrows = true
        · rw [if_pos ht] at h
          exact Or.inr (Or.inr (Or.inl (Except.error.inj h).symm))
        · rw [if_neg ht] at h
          by_cases h1 : inp.side = "front"
          · rw [if_pos h1] at h; simp at h
          · rw [if_neg h1] at h
            by_cases h2 : inp.side = "back"
            · rw [if_pos h2] at h; simp at h
            · rw [if_neg h2] at h
              exact Or.inr (Or.inr (Or.inr (Except.error.inj h).symm))
  · constructor
    · intro h
      unfold scan_id_card at h
      by_cases hl : inp.loadOk = false
      · rw [if_pos hl] at h
        exact absurd (Except.error.inj h) (by decide)
      · rw [if_neg hl] at h
        have hl' : inp.loadOk = true := by
          revert hl; cases inp.loadOk <;> simp
        rcases hbest : find_best_card_contour inp.cands with u | b <;>
          rw [hbest] at h
        · cases u
          obtain ⟨hb, hf⟩ := (find_best_error_iff inp.cands).mp hbest
          exact ⟨hl', hb, hf⟩
        · replace h :
              (if b.transformThrows = true then Except.error ScanFailure.transformError
                else if inp.side = "front" then Except.ok b
                else if inp.side = "back" then Except.ok b
                else Except.error ScanFailure.invalidSide)
                = Except.error ScanFailure.noQuad := h
          by_cases ht : b.transformThrows = true
          · rw [if_pos ht] at h
            exact absurd (Except.error.inj h) (by decide)
          · rw [if_neg ht] at h
            by_cases h1 : inp.side = "front"
            · rw [if_pos h1] at h; simp at h
            · rw [if_neg h1] at h
              by_cases h2 : inp.side = "back"
              · rw [if_pos h2] at h; simp at h
              · rw [if_neg h2] at h
                exact absurd (Except.error.inj h) (by decide)
    · rintro ⟨hl, h1, h2⟩
      unfold scan_id_card
      rw [if_neg (by rw [hl]; simp)]
      rw [(find_best_error_iff inp.cands).mpr ⟨h1, h2⟩]
  · constructor
    · intro h
      unfold scan_id_card at h
      by_cases hl : inp.loadOk = false
      · rw [if_pos hl] at h
        exact absurd (Except.error.inj h) (by decide)
      · rw [if_neg hl] at h
        have hl' : inp.loadOk = true := by
          revert hl; cases inp.loadOk <;> simp
        rcases hbest : find_best_card_contour inp.cands with u | b <;>
          rw [hbest] at h
        · exact absurd (Except.error.inj h) (by decide)
        · replace h :
              (if b.transformThrows = true then Except.error ScanFailure.transformError
                else if inp.side = "front" then Except.ok b
                else if inp.side = "back" then Except.ok b
                else Except.error ScanFailure.invalidSide)
                = Except.error ScanFailure.transformError := h
          by_cases ht : b.transformThrows = true
          · exact ⟨hl', b, hbest ▸ rfl, ht⟩
          · rw [if_neg ht] at h
            by_cases h1 : inp.side = "front"
            · rw [if_pos h1] at h; simp at h
            · rw [if_neg h1] at h
              by_cases h2 : inp.side = "back"
              · rw [if_pos h2] at h; simp at h
              · rw [if_neg h2] at h
                exact absurd (Except.error.inj h) (by decide)
    · rintro ⟨hl, b, hbest, ht⟩
      simp [scan_id_card, hl, hbest, ht]
  · have hcond : (c.transformThrows || c.imageNone || c.validateThrows) = true := by
      rcases hf with h | h <;> simp [h]
    simp [contourLoop, hq, hcond]

/-- Witness for C7 (amended): an image-load failure surfaces `imageLoad`, an
empty candidate list surfaces `noQuad` with no accepted candidate and no
fallback, a sole fallback whose transform raises surfaces the re-applied
transform's error, and a raising candidate is skipped while the loop
continues. -/
theorem C7_fatal_failures_witness :
    (ScanFailure.imageLoad = .imageLoad ∨ ScanFailure.imageLoad = .noQuad ∨
      ScanFailure.imageLoad = .transformError ∨
      ScanFailure.imageLoad = .invalidSide) ∧
    ((⟨true, [], "front"⟩ : ScanInput).loadOk = true ∧
      (contourLoop ([] : List Cand) none).1 = none ∧
      (contourLoop ([] : List Cand) none).2.1 = none) ∧
    ((⟨true, [throwCand], "front"⟩ : ScanInput).loadOk = true ∧
      ∃ b, find_best_card_contour [throwCand] = .ok b ∧
        b.transformThrows = true) ∧
    contourLoop [throwCand] none
      = consTrace throwCand (contourLoop [] (updateFb none throwCand)) :=
  ⟨C7_fatal_failures.1 ⟨false, [], "front"⟩ .imageLoad (by rfl),
   (C7_fatal_failures.2.1 ⟨true, [], "front"⟩).mp (by rfl),
   (C7_fatal_failures.2.2.1 ⟨true, [throwCand], "front"⟩).mp (by rfl),
   C7_fatal_failures.2.2.2 throwCand [] none (by decide) (Or.inl (by decide))⟩

/-- C7 counterexample: the scan surfaces more than the two claimed fatal
failures.  With a good candidate and side `"top"` the invalid-side
`ValueError` surfaces; with a sole fallback candidate whose transform raises
and a valid side, the perspective transform re-applied at line 390 re-raises
uncaught; neither failure is image-load or no-quadrilateral. -/
theorem C7_counterexample :
    scan_id_card ⟨true, [okCand], "top"⟩ = .error .invalidSide ∧
    scan_id_card ⟨true, [throwCand], "front"⟩ = .error .transformError ∧
    scan_id_card ⟨true, [okCand], "front"⟩ = .ok okCand ∧
    ScanFailure.invalidSide ≠ .imageLoad ∧
    ScanFailure.invalidSide ≠ .noQuad ∧
    ScanFailure.transformError ≠ .imageLoad ∧
    ScanFailure.transformError ≠ .noQuad :=
  ⟨by rfl, by rfl, by rfl, by decide, by decide, by decide, by decide⟩

/-- C10 (amended): with a card-side argument other than `"front"` or
`"back"`, `scan_id_card` raises the invalid-side `ValueError` provided the
earlier pipeline stages all complete — and only after them: an image-load
failure, a contour-search failure, or an error of the perspective transform
re-applied at line 390 to the chosen contour each takes precedence and
surfaces its own error instead of the `ValueError`. -/
theorem C10_invalid_side (inp : ScanInput)
    (h1 : inp.side ≠ "front") (h2 : inp.side ≠ "back") :
    (inp.loadOk = false → scan_id_card inp = .error .imageLoad) ∧
    (inp.loadOk = true → find_best_card_contour inp.cands = .error () →
        scan_id_card inp = .error .noQuad) ∧
    (∀ b, inp.loadOk = true → find_best_card_contour inp.cands = .ok b →
        b.transformThrows = true → scan_id_card inp = .error .transformError) ∧
    (∀ b, inp.loadOk = true → find_best_card_contour inp.cands = .ok b →
        b.transformThrows = false → scan_id_card inp = .error .invalidSide) := by
  refine ⟨fun hl => ?_, fun hl hf => ?_, fun b hl hf ht => ?_, fun b hl hf ht => ?_⟩
  · simp [scan_id_card, hl]
  · simp [scan_id_card, hl, hf]
  · simp [scan_id_card, hl, hf, ht]
  · simp [scan_id_card, hl, hf, ht, h1, h2]

/-- Witness for C10 (amended): a loadable image with one good candidate and
side `"top"` yields the invalid-side error. -/
theorem C10_invalid_side_witness :
    scan_id_card ⟨true, [okCand], "top"⟩ = .error .invalidSide :=
  (C10_invalid_side ⟨true, [okCand], "top"⟩ (by decide) (by decide)).2.2.2 okCand
    (by rfl) (by rfl) (by rfl)

/-- C10 counterexample: a call with invalid side `"top"` whose chosen
contour is a fallback with a raising transform does *not* raise the
invalid-side `ValueError`: the transform re-applied at line 390 raises first,
before the side check at line 405 is reached. -/
theorem C10_counterexample :
    ("top" ≠ "front") ∧ ("top" ≠ "back") ∧
    scan_id_card ⟨true, [throwCand], "top"⟩ = .error .transformError ∧
    ScanFailure.transformError ≠ .invalidSide :=
  ⟨by decide, by decide, by rfl, by decide⟩
